import Mathlib

/-!
Verification of the AWS credential-configuration path of the vault auth
backend (`builtin/credential/aws/path_config_client.go`): the client
configuration record, its JSON codec, and the Read / CreateUpdate / Delete
handlers, embedded as pure Lean functions over an explicit storage-adapter
state with an event trace recording lock, storage and cache-flush actions.
-/

namespace AwsConfigClient

/-- The persisted client configuration record (`clientConfig` in the source):
three string fields tagged `access_key`, `secret_key`, `endpoint`. -/
structure clientConfig where
  AccessKey : String
  SecretKey : String
  Endpoint  : String
deriving DecidableEq, Repr

/-- Operation kind carried by the request (`logical.Operation` restricted to
the operations this path registers callbacks for). -/
inductive OpKind where
  | createOp
  | updateOp
  | deleteOp
  | readOp
deriving DecidableEq, Repr

/-- The request's field data for this path's three schema fields: for each
field, `some v` if the caller explicitly supplied value `v` (the framework's
`GetOk` returning ok), `none` otherwise.  Each field's declared schema
default is the empty string. -/
structure FieldData where
  access_key : Option String
  secret_key : Option String
  endpoint   : Option String
deriving DecidableEq, Repr

/-- Errors surfaced by the handlers: a storage-adapter I/O error carrying the
adapter's message, or a JSON decode error on the stored bytes. -/
inductive Err where
  | storage (e : String)
  | decodeErr
deriving DecidableEq, Repr

/-- The storage adapter's state and fault behaviour at the fixed key
`config/client`: the currently stored bytes (or absent), and for each of
Get/Put/Delete an optional injected I/O error. -/
structure Adapter where
  stored : Option (List Char)
  getErr : Option String
  putErr : Option String
  delErr : Option String
deriving DecidableEq, Repr

/-- An adapter holding `s` with no injected faults. -/
def mkAdapter (s : Option (List Char)) : Adapter :=
  ⟨s, none, none, none⟩

/-- Observable events of a handler call, in order of occurrence: exclusive
lock acquire/release (`configMutex.Lock`/`Unlock`), shared lock
acquire/release (`RLock`/`RUnlock`), storage Get/Put/Delete calls, and the
EC2 client cache flush (`flushCachedEC2Clients`). -/
inductive Event where
  | lockEx
  | unlockEx
  | lockSh
  | unlockSh
  | storGet
  | storPut
  | storDelete
  | flush
deriving DecidableEq, Repr

/-- Number of cache flushes in a trace. -/
def flushCount (tr : List Event) : Nat :=
  tr.count Event.flush

/-! ## Configuration record codec

Modelled from the spec: the codec (`logical.StorageEntryJSON` /
`StorageEntry.DecodeJSON` of the vault `logical` package) is not part of the
excerpted source; per the spec it "converts ConfigRecord to/from the
adapter's byte representation", a "structured object with exactly three
named string fields", serialized as JSON with the struct's `json` tags
`access_key`, `secret_key`, `endpoint` in declaration order, string values
quoted with backslash escaping. -/

/-- JSON string-body escaping of one character: quote and backslash are
backslash-escaped, everything else passes through. -/
def escapeChar (c : Char) : List Char :=
  if c = '"' ∨ c = '\\' then ['\\', c] else [c]

/-- JSON string-body escaping of a character list. -/
def escapeList : List Char → List Char
  | [] => []
  | c :: cs => escapeChar c ++ escapeList cs

/-- Literal opening of the serialized object up to the first value's opening
quote. -/
def keyA : List Char := "\x7b\"access_key\":\"".data

/-- Literal between the first value's closing quote and the second value's
opening quote. -/
def keyS : List Char := ",\"secret_key\":\"".data

/-- Literal between the second value's closing quote and the third value's
opening quote. -/
def keyE : List Char := ",\"endpoint\":\"".data

/-- Literal closing brace of the serialized object. -/
def closeBrace : List Char := "\x7d".data

/-- Serialize a record to its byte (character) representation. -/
def encode (r : clientConfig) : List Char :=
  keyA ++ (escapeList r.AccessKey.data ++ ('"' ::
    (keyS ++ (escapeList r.SecretKey.data ++ ('"' ::
      (keyE ++ (escapeList r.Endpoint.data ++ ('"' :: closeBrace))))))))

/-- Consume an exact literal prefix, returning the remainder, or `none` if
the input does not start with it. -/
def dropLit : List Char → List Char → Option (List Char)
  | [], input => some input
  | _ :: _, [] => none
  | l :: ls, c :: cs => if l = c then dropLit ls cs else none

/-- Parse a JSON string body up to and including its closing unescaped
quote, undoing backslash escapes; returns the body and the remainder. -/
def parseStrBody : List Char → Option (List Char × List Char)
  | [] => none
  | c :: rest =>
    if c = '"' then some ([], rest)
    else if c = '\\' then
      match rest with
      | [] => none
      | d :: rest2 =>
        match parseStrBody rest2 with
        | none => none
        | some (s, r) => some (d :: s, r)
    else
      match parseStrBody rest with
      | none => none
      | some (s, r) => some (c :: s, r)

/-- Deserialize bytes into a record; `none` is a decode error. -/
def decode (bs : List Char) : Option clientConfig :=
  match dropLit keyA bs with
  | none => none
  | some r1 =>
    match parseStrBody r1 with
    | none => none
    | some (a, r2) =>
      match dropLit keyS r2 with
      | none => none
      | some r3 =>
        match parseStrBody r3 with
        | none => none
        | some (s, r4) =>
          match dropLit keyE r4 with
          | none => none
          | some r5 =>
            match parseStrBody r5 with
            | none => none
            | some (e, r6) =>
              match dropLit closeBrace r6 with
              | none => none
              | some r7 =>
                if r7 = [] then some ⟨String.mk a, String.mk s, String.mk e⟩
                else none

/-! ## Handlers -/

/-- `clientConfigEntryInternal`: the non-locking load — storage Get at
`config/client`, absent key yields no record, present bytes are decoded. -/
def clientConfigEntryInternal (a : Adapter) : Except Err (Option clientConfig) :=
  match a.getErr with
  | some e => Except.error (Err.storage e)
  | none =>
    match a.stored with
    | none => Except.ok none
    | some bs =>
      match decode bs with
      | none => Except.error Err.decodeErr
      | some c => Except.ok (some c)

/-- One field block of `pathConfigClientCreateUpdate`: with an explicitly
provided value, apply it and raise the changed flag when it differs from the
current value; with no provided value, apply the schema default (empty
string) when the request operation is a create, else leave untouched. -/
def applyField (cur : String) (provided : Option String) (op : OpKind)
    (changed : Bool) : String × Bool :=
  match provided with
  | some v => if cur ≠ v then (v, true) else (cur, changed)
  | none => if op = OpKind.createOp then ("", changed) else (cur, changed)

/-- Result of a write handler call: the returned value (`Except.ok ()` for
the Go `nil, nil`), the adapter's stored bytes after the call, and the event
trace. -/
structure WriteResult where
  resp   : Except Err Unit
  stored : Option (List Char)
  trace  : List Event
deriving Repr

/-- `pathConfigClientCreateUpdate`: under the exclusive lock (released by
`defer` on return), load the existing record (zero record if absent), apply
the three field blocks accumulating the changed-credentials flag, serialize
and Put unconditionally, and flush the cached EC2 clients when the flag is
set.  Every error short-circuits the return (the deferred unlock still
runs). -/
def pathConfigClientCreateUpdate (op : OpKind) (data : FieldData)
    (a : Adapter) : WriteResult :=
  match clientConfigEntryInternal a with
  | Except.error e =>
    ⟨Except.error e, a.stored, [Event.lockEx, Event.storGet, Event.unlockEx]⟩
  | Except.ok maybeEntry =>
    let configEntry := maybeEntry.getD ⟨"", "", ""⟩
    let (ak, ch1) := applyField configEntry.AccessKey data.access_key op false
    let (sk, ch2) := applyField configEntry.SecretKey data.secret_key op ch1
    let (ep, ch3) := applyField configEntry.Endpoint data.endpoint op ch2
    let newEntry : clientConfig := ⟨ak, sk, ep⟩
    match a.putErr with
    | some e =>
      ⟨Except.error (Err.storage e), a.stored,
        [Event.lockEx, Event.storGet, Event.storPut, Event.unlockEx]⟩
    | none =>
      if ch3 then
        ⟨Except.ok (), some (encode newEntry),
          [Event.lockEx, Event.storGet, Event.storPut, Event.flush,
            Event.unlockEx]⟩
      else
        ⟨Except.ok (), some (encode newEntry),
          [Event.lockEx, Event.storGet, Event.storPut, Event.unlockEx]⟩

/-- `pathConfigClientDelete`: under the exclusive lock (released by `defer`
on return), storage Delete at `config/client` (an error short-circuits the
return), then flush the cached EC2 clients unconditionally. -/
def pathConfigClientDelete (a : Adapter) : WriteResult :=
  match a.delErr with
  | some e =>
    ⟨Except.error (Err.storage e), a.stored,
      [Event.lockEx, Event.storDelete, Event.unlockEx]⟩
  | none =>
    ⟨Except.ok (), none,
      [Event.lockEx, Event.storDelete, Event.flush, Event.unlockEx]⟩

/-- Result of a Read call: the response — `none` models the Go `nil, nil`
"not configured" reply, `some m` the response whose Data is the tag-driven
struct-to-map conversion — plus the (unchanged) stored bytes and the trace. -/
structure ReadResult where
  resp   : Except Err (Option (List (String × String)))
  stored : Option (List Char)
  trace  : List Event
deriving Repr

/-- The `structs` tag-driven map of a record, keys in declaration order. -/
def recordMap (c : clientConfig) : List (String × String) :=
  [("access_key", c.AccessKey), ("secret_key", c.SecretKey),
    ("endpoint", c.Endpoint)]

/-- `pathConfigClientRead`: loads the record via `clientConfigEntry`, which
holds the shared lock around the internal load (released by `defer` when
that load returns); absent record yields the "not configured" reply, a
present record is returned as its field map.  No writes, no flush. -/
def pathConfigClientRead (a : Adapter) : ReadResult :=
  match clientConfigEntryInternal a with
  | Except.error e =>
    ⟨Except.error e, a.stored, [Event.lockSh, Event.storGet, Event.unlockSh]⟩
  | Except.ok none =>
    ⟨Except.ok none, a.stored, [Event.lockSh, Event.storGet, Event.unlockSh]⟩
  | Except.ok (some c) =>
    ⟨Except.ok (some (recordMap c)), a.stored,
      [Event.lockSh, Event.storGet, Event.unlockSh]⟩

/-! ## Codec laws -/

theorem dropLit_append (l r : List Char) : dropLit l (l ++ r) = some r := by
  induction l with
  | nil => rfl
  | cons c cs ih => simp [dropLit, ih]

theorem dropLit_self (l : List Char) : dropLit l l = some [] := by
  have h := dropLit_append l []
  simpa using h

theorem parseStrBody_quote (r : List Char) :
    parseStrBody ('"' :: r) = some ([], r) := by
  rw [parseStrBody.eq_def]
  simp

theorem parseStrBody_esc (d : Char) (rest s r : List Char)
    (h : parseStrBody rest = some (s, r)) :
    parseStrBody ('\\' :: d :: rest) = some (d :: s, r) := by
  rw [parseStrBody.eq_def]
  simp [h]

theorem parseStrBody_other (c : Char) (rest s r : List Char)
    (h1 : c ≠ '"') (h2 : c ≠ '\\') (h : parseStrBody rest = some (s, r)) :
    parseStrBody (c :: rest) = some (c :: s, r) := by
  rw [parseStrBody.eq_def]
  simp [h1, h2, h]

theorem parseStrBody_escape (s r : List Char) :
    parseStrBody (escapeList s ++ '"' :: r) = some (s, r) := by
  induction s with
  | nil => simpa [escapeList] using parseStrBody_quote r
  | cons c cs ih =>
    by_cases h : c = '"' ∨ c = '\\'
    · have hs : escapeList (c :: cs) ++ '"' :: r
          = '\\' :: c :: (escapeList cs ++ '"' :: r) := by
        simp [escapeList, escapeChar, h]
      rw [hs, parseStrBody_esc c _ cs r ih]
    · push_neg at h
      have hs : escapeList (c :: cs) ++ '"' :: r
          = c :: (escapeList cs ++ '"' :: r) := by
        simp [escapeList, escapeChar, h.1, h.2]
      rw [hs, parseStrBody_other c _ cs r h.1 h.2 ih]

theorem decode_encode (c : clientConfig) : decode (encode c) = some c := by
  simp [decode, encode, dropLit_append, parseStrBody_escape, dropLit_self]

/-! ## Upsert characterization -/

/-- The value a single field ends at after an upsert: a provided value wins;
an unprovided field is defaulted to the empty string on a create-kind
request and kept otherwise. -/
def upsertedField (cur : String) (provided : Option String) (op : OpKind) :
    String :=
  match provided with
  | some v => v
  | none => if op = OpKind.createOp then "" else cur

/-- Whether a single field raises the changed-credentials flag: only a
provided value differing from the current one does. -/
def fieldChanged (cur : String) : Option String → Bool
  | some v => if cur ≠ v then true else false
  | none => false

/-- The record an upsert persists, field by field. -/
def upsertTarget (cur : clientConfig) (data : FieldData) (op : OpKind) :
    clientConfig :=
  ⟨upsertedField cur.AccessKey data.access_key op,
    upsertedField cur.SecretKey data.secret_key op,
    upsertedField cur.Endpoint data.endpoint op⟩

/-- Whether an upsert raises the changed-credentials flag at all. -/
def upsertChanged (cur : clientConfig) (data : FieldData) : Bool :=
  (fieldChanged cur.AccessKey data.access_key ||
    fieldChanged cur.SecretKey data.secret_key) ||
  fieldChanged cur.Endpoint data.endpoint

theorem applyField_eq (cur : String) (provided : Option String) (op : OpKind)
    (changed : Bool) :
    applyField cur provided op changed =
      (upsertedField cur provided op, changed || fieldChanged cur provided) := by
  cases provided with
  | none =>
    simp only [applyField, upsertedField, fieldChanged, Bool.or_false]
    split <;> rfl
  | some v =>
    by_cases h : cur = v <;>
      simp [applyField, upsertedField, fieldChanged, h]

theorem upsert_char (s0 : Option clientConfig) (op : OpKind)
    (data : FieldData) :
    pathConfigClientCreateUpdate op data (mkAdapter (s0.map encode)) =
      ⟨Except.ok (),
        some (encode (upsertTarget (s0.getD ⟨"", "", ""⟩) data op)),
        if upsertChanged (s0.getD ⟨"", "", ""⟩) data then
          [Event.lockEx, Event.storGet, Event.storPut, Event.flush,
            Event.unlockEx]
        else [Event.lockEx, Event.storGet, Event.storPut, Event.unlockEx]⟩ := by
  cases s0 with
  | none =>
    simp only [pathConfigClientCreateUpdate, clientConfigEntryInternal,
      mkAdapter, Option.map_none', Option.getD_none, applyField_eq,
      upsertTarget, upsertChanged, Bool.false_or]
    split <;> rfl
  | some c =>
    simp only [pathConfigClientCreateUpdate, clientConfigEntryInternal,
      mkAdapter, Option.map_some', Option.getD_some, decode_encode,
      applyField_eq, upsertTarget, upsertChanged, Bool.false_or]
    split <;> rfl

/-- An upsert's trace is one of three shapes: load failed; load succeeded
but Put failed; the full successful sequence with the flush present exactly
when the changed flag was raised. -/
theorem upsert_trace_cases (op : OpKind) (data : FieldData) (a : Adapter) :
    (pathConfigClientCreateUpdate op data a).trace
        = [Event.lockEx, Event.storGet, Event.unlockEx] ∨
    (pathConfigClientCreateUpdate op data a).trace
        = [Event.lockEx, Event.storGet, Event.storPut, Event.unlockEx] ∨
    (pathConfigClientCreateUpdate op data a).trace
        = [Event.lockEx, Event.storGet, Event.storPut, Event.flush,
            Event.unlockEx] := by
  unfold pathConfigClientCreateUpdate
  cases hE : clientConfigEntryInternal a with
  | error e => simp
  | ok me =>
    simp only [applyField_eq]
    cases hP : a.putErr with
    | some e => simp
    | none =>
      split
      · simp
      · split <;> simp

/-- A delete's trace is one of two shapes: the storage Delete failed, or the
full successful sequence with the unconditional flush. -/
theorem delete_trace_cases (a : Adapter) :
    (pathConfigClientDelete a).trace
        = [Event.lockEx, Event.storDelete, Event.unlockEx] ∨
    (pathConfigClientDelete a).trace
        = [Event.lockEx, Event.storDelete, Event.flush, Event.unlockEx] := by
  unfold pathConfigClientDelete
  cases hD : a.delErr <;> simp

/-- Re-upserting the same field data over the record a first upsert produced
leaves the field unchanged. -/
theorem upsertedField_self (cur : String) (p : Option String) (op : OpKind) :
    upsertedField (upsertedField cur p op) p OpKind.updateOp
      = upsertedField cur p op := by
  cases p <;> simp [upsertedField]

/-- Re-upserting the same field data over the record a first upsert produced
raises no changed flag. -/
theorem fieldChanged_self (cur : String) (p : Option String) (op : OpKind) :
    fieldChanged (upsertedField cur p op) p = false := by
  cases p <;> simp [upsertedField, fieldChanged]

/-- On a create-kind request, a field ends at the provided value or at the
empty-string default. -/
theorem upsertedField_create (cur : String) (p : Option String) :
    upsertedField cur p OpKind.createOp = p.getD "" := by
  cases p <;> simp [upsertedField]

theorem flushCount_load_err :
    flushCount [Event.lockEx, Event.storGet, Event.unlockEx] = 0 := by decide

theorem flushCount_put :
    flushCount [Event.lockEx, Event.storGet, Event.storPut, Event.unlockEx]
      = 0 := by decide

theorem flushCount_changed :
    flushCount [Event.lockEx, Event.storGet, Event.storPut, Event.flush,
      Event.unlockEx] = 1 := by decide

theorem flushCount_del_err :
    flushCount [Event.lockEx, Event.storDelete, Event.unlockEx] = 0 := by
  decide

theorem flushCount_del_ok :
    flushCount [Event.lockEx, Event.storDelete, Event.flush, Event.unlockEx]
      = 1 := by decide

theorem flushCount_read :
    flushCount [Event.lockSh, Event.storGet, Event.unlockSh] = 0 := by decide

/-! ## Claims -/

/-- C10: for every record (any combination of the three string fields,
empty strings included), decoding the bytes produced by encoding it yields
the identical record — the codec's round-trip law. -/
theorem codec_round_trip (r : clientConfig) : decode (encode r) = some r :=
  decode_encode r

/-- C1 counterexample: on a Delete call against an unconfigured backend the
cache flush event occurs, and the exclusive-lock release does not precede
it — the deferred unlock runs after `flushCachedEC2Clients`, so the claimed
"lock released strictly before Flush" ordering is false on this call. -/
theorem flush_before_unlock_delete_cex :
    ((pathConfigClientDelete (mkAdapter none)).trace.contains Event.flush
        = true) ∧
    ¬ ((pathConfigClientDelete (mkAdapter none)).trace.indexOf Event.unlockEx
        < (pathConfigClientDelete (mkAdapter none)).trace.indexOf
            Event.flush) := by decide

/-- C1 (amended): for every Upsert and Delete call, the storage Put (or
Delete) occurs strictly before any Client Cache Flush, and any Flush occurs
strictly before the exclusive lock is released — the deferred unlock runs
last, so Flush runs while the write lock is still held. -/
theorem put_flush_lock_order (op : OpKind) (data : FieldData) (a : Adapter) :
    ((pathConfigClientCreateUpdate op data a).trace.contains Event.flush
        = true →
      (pathConfigClientCreateUpdate op data a).trace.indexOf Event.storPut <
        (pathConfigClientCreateUpdate op data a).trace.indexOf Event.flush ∧
      (pathConfigClientCreateUpdate op data a).trace.indexOf Event.flush <
        (pathConfigClientCreateUpdate op data a).trace.indexOf
          Event.unlockEx) ∧
    ((pathConfigClientCreateUpdate op data a).trace.contains Event.storPut
        = true →
      (pathConfigClientCreateUpdate op data a).trace.indexOf Event.storPut <
        (pathConfigClientCreateUpdate op data a).trace.indexOf
          Event.unlockEx) ∧
    ((pathConfigClientDelete a).trace.contains Event.flush = true →
      (pathConfigClientDelete a).trace.indexOf Event.storDelete <
        (pathConfigClientDelete a).trace.indexOf Event.flush ∧
      (pathConfigClientDelete a).trace.indexOf Event.flush <
        (pathConfigClientDelete a).trace.indexOf Event.unlockEx) := by
  have hu := upsert_trace_cases op data a
  have hd := delete_trace_cases a
  refine ⟨?_, ?_, ?_⟩
  · intro hf
    rcases hu with h | h | h <;> rw [h] at hf ⊢
    · exact absurd hf (by decide)
    · exact absurd hf (by decide)
    · exact ⟨by decide, by decide⟩
  · intro hp
    rcases hu with h | h | h <;> rw [h] at hp ⊢
    · exact absurd hp (by decide)
    · decide
    · decide
  · intro hf
    rcases hd with h | h <;> rw [h] at hf ⊢
    · exact absurd hf (by decide)
    · exact ⟨by decide, by decide⟩

/-- C1 witness: the ordering theorem applied to a concrete changed Upsert
and a concrete Delete, with the flush present in both traces. -/
theorem put_flush_lock_order_witness :
    ((pathConfigClientCreateUpdate OpKind.createOp ⟨some "A1", none, none⟩
        (mkAdapter none)).trace.indexOf Event.storPut <
      (pathConfigClientCreateUpdate OpKind.createOp ⟨some "A1", none, none⟩
        (mkAdapter none)).trace.indexOf Event.flush) ∧
    ((pathConfigClientCreateUpdate OpKind.createOp ⟨some "A1", none, none⟩
        (mkAdapter none)).trace.indexOf Event.flush <
      (pathConfigClientCreateUpdate OpKind.createOp ⟨some "A1", none, none⟩
        (mkAdapter none)).trace.indexOf Event.unlockEx) ∧
    ((pathConfigClientDelete (mkAdapter none)).trace.indexOf Event.storDelete
        < (pathConfigClientDelete (mkAdapter none)).trace.indexOf
            Event.flush) ∧
    ((pathConfigClientDelete (mkAdapter none)).trace.indexOf Event.flush <
      (pathConfigClientDelete (mkAdapter none)).trace.indexOf
        Event.unlockEx) := by
  have h := put_flush_lock_order OpKind.createOp ⟨some "A1", none, none⟩
    (mkAdapter none)
  exact ⟨(h.1 (by decide)).1, (h.1 (by decide)).2,
    (h.2.2 (by decide)).1, (h.2.2 (by decide)).2⟩

/-- C2 counterexample: with a record already stored and no field supplied,
the persisted outcome differs between a CreateOperation call and an
UpdateOperation call — the handler's defaulting follows the caller-supplied
operation kind, not a classification re-derived from the loaded state. -/
theorem upsert_depends_on_op_kind_cex :
    (pathConfigClientCreateUpdate OpKind.createOp ⟨none, none, none⟩
        (mkAdapter (some (encode ⟨"X", "", ""⟩)))).stored ≠
    (pathConfigClientCreateUpdate OpKind.updateOp ⟨none, none, none⟩
        (mkAdapter (some (encode ⟨"X", "", ""⟩)))).stored := by decide

/-- C2 (amended): Upsert classifies the call for defaulting purposes solely
from the caller-supplied operation kind — an unprovided field is reset to
the empty-string default exactly when the request operation is
CreateOperation (see `upsertedField`), regardless of whether a record
existed; the loaded state supplies only the base values, and the changed
flag (hence the flush) is raised only by provided differing values. -/
theorem upsert_full_characterization (s0 : Option clientConfig) (op : OpKind)
    (data : FieldData) :
    pathConfigClientCreateUpdate op data (mkAdapter (s0.map encode)) =
      ⟨Except.ok (),
        some (encode (upsertTarget (s0.getD ⟨"", "", ""⟩) data op)),
        if upsertChanged (s0.getD ⟨"", "", ""⟩) data then
          [Event.lockEx, Event.storGet, Event.storPut, Event.flush,
            Event.unlockEx]
        else [Event.lockEx, Event.storGet, Event.storPut,
          Event.unlockEx]⟩ :=
  upsert_char s0 op data

/-- C3 counterexample: creating from the unconfigured state with the access
key explicitly supplied as the empty string triggers no flush — the first
creation is not always a "change". -/
theorem create_empty_access_key_no_flush_cex :
    (pathConfigClientCreateUpdate OpKind.createOp ⟨some "", none, none⟩
        (mkAdapter none)).trace.contains Event.flush = false := by decide

/-- C3 (amended): a create-Upsert from the unconfigured state with only the
access key supplied succeeds, persists a record with the supplied access key
and empty secret key and endpoint, and triggers the flush exactly when the
supplied access key differs from the empty-string default (so once when it
is nonempty, never when it is empty). -/
theorem create_only_access_key (v : String) :
    (pathConfigClientCreateUpdate OpKind.createOp ⟨some v, none, none⟩
        (mkAdapter none)).resp = Except.ok () ∧
    (pathConfigClientCreateUpdate OpKind.createOp ⟨some v, none, none⟩
        (mkAdapter none)).stored = some (encode ⟨v, "", ""⟩) ∧
    flushCount (pathConfigClientCreateUpdate OpKind.createOp
        ⟨some v, none, none⟩ (mkAdapter none)).trace
      = (if v = "" then 0 else 1) := by
  have h := upsert_char none OpKind.createOp ⟨some v, none, none⟩
  simp only [Option.map_none'] at h
  rw [h]
  by_cases hv : v = ""
  · simp [upsertTarget, upsertedField, upsertChanged, fieldChanged, hv,
      flushCount_put]
  · have hv2 : ¬ ("" = v) := fun he => hv he.symm
    simp [upsertTarget, upsertedField, upsertChanged, fieldChanged, hv, hv2,
      flushCount_changed]

/-- C4: a CreateOperation Upsert over an existing record overwrites every
unprovided field with the empty-string default, discarding the stored value
(the persisted record is exactly the provided values padded with defaults),
and these overwrites never raise the changed flag: when no field is
provided at all, the call flushes nothing even though the persisted values
may have changed. -/
theorem create_on_existing_defaults_overwrite (c : clientConfig)
    (data : FieldData) :
    (pathConfigClientCreateUpdate OpKind.createOp data
        (mkAdapter (some (encode c)))).stored =
      some (encode ⟨data.access_key.getD "", data.secret_key.getD "",
        data.endpoint.getD ""⟩) ∧
    (data.access_key = none → data.secret_key = none → data.endpoint = none →
      flushCount (pathConfigClientCreateUpdate OpKind.createOp data
          (mkAdapter (some (encode c)))).trace = 0) := by
  have h := upsert_char (some c) OpKind.createOp data
  simp only [Option.map_some', Option.getD_some] at h
  rw [h]
  constructor
  · simp [upsertTarget, upsertedField_create]
  · intro h1 h2 h3
    simp [upsertChanged, fieldChanged, h1, h2, h3, flushCount_put]

/-- C4 witness: a CreateOperation call with no fields provided over the
stored record ("AK","SK","EP") persists the all-empty record and flushes
nothing. -/
theorem create_on_existing_defaults_overwrite_witness :
    (pathConfigClientCreateUpdate OpKind.createOp ⟨none, none, none⟩
        (mkAdapter (some (encode ⟨"AK", "SK", "EP"⟩)))).stored =
      some (encode ⟨"", "", ""⟩) ∧
    flushCount (pathConfigClientCreateUpdate OpKind.createOp
        ⟨none, none, none⟩
        (mkAdapter (some (encode ⟨"AK", "SK", "EP"⟩)))).trace = 0 := by
  have h := create_on_existing_defaults_overwrite ⟨"AK", "SK", "EP"⟩
    ⟨none, none, none⟩
  exact ⟨by simpa using h.1, h.2 rfl rfl rfl⟩

/-- C5: whenever the storage delete succeeds, Delete succeeds regardless of
whether a record existed, removes the persisted record (a subsequent Read
reports not configured), and flushes the client cache exactly once. -/
theorem delete_unconditional_flush (a : Adapter) (h : a.delErr = none) :
    (pathConfigClientDelete a).resp = Except.ok () ∧
    (pathConfigClientDelete a).stored = none ∧
    flushCount (pathConfigClientDelete a).trace = 1 ∧
    (pathConfigClientRead (mkAdapter (pathConfigClientDelete a).stored)).resp
      = Except.ok none := by
  unfold pathConfigClientDelete
  rw [h]
  simp [flushCount_del_ok, pathConfigClientRead, clientConfigEntryInternal,
    mkAdapter]

/-- C5 witness: the delete theorem applied to an unconfigured, fault-free
adapter — deleting a non-existent record succeeds and still flushes once. -/
theorem delete_unconditional_flush_witness :
    (pathConfigClientDelete (mkAdapter none)).resp = Except.ok () ∧
    (pathConfigClientDelete (mkAdapter none)).stored = none ∧
    flushCount (pathConfigClientDelete (mkAdapter none)).trace = 1 ∧
    (pathConfigClientRead
        (mkAdapter (pathConfigClientDelete (mkAdapter none)).stored)).resp
      = Except.ok none :=
  delete_unconditional_flush (mkAdapter none) rfl

/-- C6: Upsert persists unconditionally and is idempotent on repetition —
starting from any well-formed state, running an Upsert and then re-running
it with the same field data (an update, since a record then exists) leaves
the stored bytes identical, raises no changed flag (no flush on the second
call), and still executes the storage Put on the second call. -/
theorem upsert_idempotent_second_call (s0 : Option clientConfig)
    (op : OpKind) (data : FieldData) :
    (pathConfigClientCreateUpdate OpKind.updateOp data
        (mkAdapter (pathConfigClientCreateUpdate op data
          (mkAdapter (s0.map encode))).stored)).stored =
      (pathConfigClientCreateUpdate op data
        (mkAdapter (s0.map encode))).stored ∧
    flushCount (pathConfigClientCreateUpdate OpKind.updateOp data
        (mkAdapter (pathConfigClientCreateUpdate op data
          (mkAdapter (s0.map encode))).stored)).trace = 0 ∧
    (pathConfigClientCreateUpdate OpKind.updateOp data
        (mkAdapter (pathConfigClientCreateUpdate op data
          (mkAdapter (s0.map encode))).stored)).trace.contains Event.storPut
      = true := by
  have h1 := upsert_char s0 op data
  have h2 := upsert_char
    (some (upsertTarget (s0.getD ⟨"", "", ""⟩) data op)) OpKind.updateOp data
  simp only [Option.map_some', Option.getD_some] at h2
  rw [h1]
  dsimp only
  rw [h2]
  refine ⟨?_, ?_, ?_⟩
  · simp [upsertTarget, upsertedField_self]
  · simp [upsertChanged, upsertTarget, fieldChanged_self, flushCount_put]
  · simp [upsertChanged, upsertTarget, fieldChanged_self]

/-- C7: an update-Upsert over an existing record that explicitly provides
exactly one field with a differing value flushes the cache exactly once and
persists a record in which the other two fields are unchanged — stated for
each of the three fields. -/
theorem single_field_update_flush_once (c : clientConfig) (v : String) :
    (v ≠ c.AccessKey →
      (pathConfigClientCreateUpdate OpKind.updateOp ⟨some v, none, none⟩
          (mkAdapter (some (encode c)))).stored =
        some (encode ⟨v, c.SecretKey, c.Endpoint⟩) ∧
      flushCount (pathConfigClientCreateUpdate OpKind.updateOp
          ⟨some v, none, none⟩ (mkAdapter (some (encode c)))).trace = 1) ∧
    (v ≠ c.SecretKey →
      (pathConfigClientCreateUpdate OpKind.updateOp ⟨none, some v, none⟩
          (mkAdapter (some (encode c)))).stored =
        some (encode ⟨c.AccessKey, v, c.Endpoint⟩) ∧
      flushCount (pathConfigClientCreateUpdate OpKind.updateOp
          ⟨none, some v, none⟩ (mkAdapter (some (encode c)))).trace = 1) ∧
    (v ≠ c.Endpoint →
      (pathConfigClientCreateUpdate OpKind.updateOp ⟨none, none, some v⟩
          (mkAdapter (some (encode c)))).stored =
        some (encode ⟨c.AccessKey, c.SecretKey, v⟩) ∧
      flushCount (pathConfigClientCreateUpdate OpKind.updateOp
          ⟨none, none, some v⟩ (mkAdapter (some (encode c)))).trace = 1) := by
  refine ⟨?_, ?_, ?_⟩
  · intro hv
    have h := upsert_char (some c) OpKind.updateOp ⟨some v, none, none⟩
    simp only [Option.map_some', Option.getD_some] at h
    rw [h]
    have hv2 : c.AccessKey ≠ v := Ne.symm hv
    constructor
    · simp [upsertTarget, upsertedField]
    · simp [upsertChanged, fieldChanged, hv2, flushCount_changed]
  · intro hv
    have h := upsert_char (some c) OpKind.updateOp ⟨none, some v, none⟩
    simp only [Option.map_some', Option.getD_some] at h
    rw [h]
    have hv2 : c.SecretKey ≠ v := Ne.symm hv
    constructor
    · simp [upsertTarget, upsertedField]
    · simp [upsertChanged, fieldChanged, hv2, flushCount_changed]
  · intro hv
    have h := upsert_char (some c) OpKind.updateOp ⟨none, none, some v⟩
    simp only [Option.map_some', Option.getD_some] at h
    rw [h]
    have hv2 : c.Endpoint ≠ v := Ne.symm hv
    constructor
    · simp [upsertTarget, upsertedField]
    · simp [upsertChanged, fieldChanged, hv2, flushCount_changed]

/-- C7 witness: the single-field theorem applied to the stored record
("a","b","c") with new value "z" for each field in turn. -/
theorem single_field_update_flush_once_witness :
    ((pathConfigClientCreateUpdate OpKind.updateOp ⟨some "z", none, none⟩
        (mkAdapter (some (encode ⟨"a", "b", "c"⟩)))).stored =
      some (encode ⟨"z", "b", "c"⟩) ∧
    flushCount (pathConfigClientCreateUpdate OpKind.updateOp
        ⟨some "z", none, none⟩
        (mkAdapter (some (encode ⟨"a", "b", "c"⟩)))).trace = 1) ∧
    ((pathConfigClientCreateUpdate OpKind.updateOp ⟨none, some "z", none⟩
        (mkAdapter (some (encode ⟨"a", "b", "c"⟩)))).stored =
      some (encode ⟨"a", "z", "c"⟩) ∧
    flushCount (pathConfigClientCreateUpdate OpKind.updateOp
        ⟨none, some "z", none⟩
        (mkAdapter (some (encode ⟨"a", "b", "c"⟩)))).trace = 1) ∧
    ((pathConfigClientCreateUpdate OpKind.updateOp ⟨none, none, some "z"⟩
        (mkAdapter (some (encode ⟨"a", "b", "c"⟩)))).stored =
      some (encode ⟨"a", "b", "z"⟩) ∧
    flushCount (pathConfigClientCreateUpdate OpKind.updateOp
        ⟨none, none, some "z"⟩
        (mkAdapter (some (encode ⟨"a", "b", "c"⟩)))).trace = 1) := by
  have h := single_field_update_flush_once ⟨"a", "b", "c"⟩ "z"
  exact ⟨h.1 (by decide), h.2.1 (by decide), h.2.2 (by decide)⟩

theorem load_getErr (a : Adapter) (e : String) (h : a.getErr = some e) :
    clientConfigEntryInternal a = Except.error (Err.storage e) := by
  unfold clientConfigEntryInternal
  rw [h]

theorem load_decodeErr (a : Adapter) (bs : List Char) (h1 : a.getErr = none)
    (h2 : a.stored = some bs) (h3 : decode bs = none) :
    clientConfigEntryInternal a = Except.error Err.decodeErr := by
  unfold clientConfigEntryInternal
  rw [h1, h2]
  simp [h3]

theorem upsert_load_error (op : OpKind) (data : FieldData) (a : Adapter)
    (err : Err) (h : clientConfigEntryInternal a = Except.error err) :
    pathConfigClientCreateUpdate op data a =
      ⟨Except.error err, a.stored,
        [Event.lockEx, Event.storGet, Event.unlockEx]⟩ := by
  unfold pathConfigClientCreateUpdate
  rw [h]

theorem read_load_error (a : Adapter) (err : Err)
    (h : clientConfigEntryInternal a = Except.error err) :
    pathConfigClientRead a =
      ⟨Except.error err, a.stored,
        [Event.lockSh, Event.storGet, Event.unlockSh]⟩ := by
  unfold pathConfigClientRead
  rw [h]

theorem upsert_put_error (op : OpKind) (data : FieldData) (a : Adapter)
    (s : Option clientConfig) (e : String)
    (hok : clientConfigEntryInternal a = Except.ok s)
    (hp : a.putErr = some e) :
    pathConfigClientCreateUpdate op data a =
      ⟨Except.error (Err.storage e), a.stored,
        [Event.lockEx, Event.storGet, Event.storPut, Event.unlockEx]⟩ := by
  unfold pathConfigClientCreateUpdate
  rw [hok]
  simp [applyField_eq, hp]

/-- C8: every storage Get/Put/Delete failure and every decode failure is
returned unchanged to the caller of Upsert, Read or Delete, the stored bytes
are untouched, and no failing call ever reaches the cache flush. -/
theorem error_propagation_no_flush (a : Adapter) (op : OpKind)
    (data : FieldData) (e : String) (bs : List Char) :
    (a.getErr = some e →
      (pathConfigClientCreateUpdate op data a).resp
          = Except.error (Err.storage e) ∧
      (pathConfigClientCreateUpdate op data a).stored = a.stored ∧
      flushCount (pathConfigClientCreateUpdate op data a).trace = 0 ∧
      (pathConfigClientRead a).resp = Except.error (Err.storage e) ∧
      flushCount (pathConfigClientRead a).trace = 0) ∧
    (a.getErr = none → a.stored = some bs → decode bs = none →
      (pathConfigClientCreateUpdate op data a).resp
          = Except.error Err.decodeErr ∧
      flushCount (pathConfigClientCreateUpdate op data a).trace = 0 ∧
      (pathConfigClientRead a).resp = Except.error Err.decodeErr) ∧
    ((∃ s, clientConfigEntryInternal a = Except.ok s) → a.putErr = some e →
      (pathConfigClientCreateUpdate op data a).resp
          = Except.error (Err.storage e) ∧
      (pathConfigClientCreateUpdate op data a).stored = a.stored ∧
      flushCount (pathConfigClientCreateUpdate op data a).trace = 0) ∧
    (a.delErr = some e →
      (pathConfigClientDelete a).resp = Except.error (Err.storage e) ∧
      (pathConfigClientDelete a).stored = a.stored ∧
      flushCount (pathConfigClientDelete a).trace = 0) := by
  refine ⟨?_, ?_, ?_, ?_⟩
  · intro hg
    rw [upsert_load_error op data a _ (load_getErr a e hg),
      read_load_error a _ (load_getErr a e hg)]
    exact ⟨rfl, rfl, flushCount_load_err, rfl, flushCount_read⟩
  · intro h1 h2 h3
    rw [upsert_load_error op data a _ (load_decodeErr a bs h1 h2 h3),
      read_load_error a _ (load_decodeErr a bs h1 h2 h3)]
    exact ⟨rfl, flushCount_load_err, rfl⟩
  · rintro ⟨s, hok⟩ hp
    rw [upsert_put_error op data a s e hok hp]
    exact ⟨rfl, rfl, flushCount_put⟩
  · intro hd
    unfold pathConfigClientDelete
    rw [hd]
    exact ⟨rfl, rfl, flushCount_del_err⟩

/-- C8 witness: the error theorem applied to a Get failure and, separately,
to a Delete failure, each with the injected message "io fail". -/
theorem error_propagation_no_flush_witness :
    ((pathConfigClientCreateUpdate OpKind.updateOp ⟨none, none, none⟩
        ⟨none, some "io fail", none, none⟩).resp
      = Except.error (Err.storage "io fail")) ∧
    flushCount (pathConfigClientCreateUpdate OpKind.updateOp
        ⟨none, none, none⟩ ⟨none, some "io fail", none, none⟩).trace = 0 ∧
    ((pathConfigClientDelete ⟨none, none, none, some "io fail"⟩).resp
      = Except.error (Err.storage "io fail")) ∧
    flushCount (pathConfigClientDelete
        ⟨none, none, none, some "io fail"⟩).trace = 0 := by
  have h1 := (error_propagation_no_flush ⟨none, some "io fail", none, none⟩
    OpKind.updateOp ⟨none, none, none⟩ "io fail" []).1 rfl
  have h2 := (error_propagation_no_flush ⟨none, none, none, some "io fail"⟩
    OpKind.updateOp ⟨none, none, none⟩ "io fail" []).2.2.2 rfl
  exact ⟨h1.1, h1.2.2.1, h2.1, h2.2.2⟩

/-- C9: Read has no side effects — the stored bytes are unchanged, the
trace is exactly the shared-lock / Get / shared-unlock sequence with no
flush, Put or Delete — and on a well-formed state it returns the record's
three tagged field values, or the "not configured" reply when no record
exists. -/
theorem read_no_side_effects (a : Adapter) (s0 : Option clientConfig) :
    (pathConfigClientRead a).stored = a.stored ∧
    (pathConfigClientRead a).trace
        = [Event.lockSh, Event.storGet, Event.unlockSh] ∧
    flushCount (pathConfigClientRead a).trace = 0 ∧
    (pathConfigClientRead (mkAdapter (s0.map encode))).resp
      = Except.ok (s0.map recordMap) := by
  have h : (pathConfigClientRead a).stored = a.stored ∧
      (pathConfigClientRead a).trace
        = [Event.lockSh, Event.storGet, Event.unlockSh] := by
    unfold pathConfigClientRead
    cases clientConfigEntryInternal a with
    | error e => exact ⟨rfl, rfl⟩
    | ok me =>
      cases me
      · exact ⟨rfl, rfl⟩
      · exact ⟨rfl, rfl⟩
  refine ⟨h.1, h.2, by rw [h.2]; exact flushCount_read, ?_⟩
  cases s0 with
  | none => simp [pathConfigClientRead, clientConfigEntryInternal, mkAdapter]
  | some c =>
    simp [pathConfigClientRead, clientConfigEntryInternal, mkAdapter,
      decode_encode]

end AwsConfigClient
